import Mathlib

/-
Verification of the TSC micro-benchmarking engine (`tsc_benchmark.h`,
`tsc_clock.h`).

The hardware clock is modelled as an oracle: each pass through a
measurement loop consumes one `Sample`, holding the start/end counter
readings of that pass and, for the migration-aware read variant, the two
core ids reported by the read-and-identify instruction.  Counter values
are 64-bit unsigned integers, modelled as `Nat` with explicit `% 2 ^ 64`
where C++ arithmetic can wrap.  The measured callable is modelled as a
state transformer `σ → σ`, threaded through the loops, so that "the
operation is executed k times" is expressible; its timing effect is
already captured by the sample oracle.  A loop that in C++ would spin
forever returns `none` here when the finite oracle is exhausted.
-/

namespace benchmarking

/-- Modulus of the C++ 64-bit unsigned `TimePoint` type. -/
def m64 : Nat := 2 ^ 64

/-- Wrapping 64-bit subtraction, the behaviour of `a - b` on `std::uint64_t`
for `a, b < 2 ^ 64`. -/
def wsub (a b : Nat) : Nat := (a + (m64 - b)) % m64

/-- One pass of a measurement loop as seen by the hardware: the counter
reading at the start (`tstart`) and end (`tend`) of the pass and the core
ids captured by the two `Rdtscp` reads (`cpu0`, `cpu1`); the plain `Rdtsc`
variants simply ignore the core ids. -/
structure Sample where
  tstart : Nat
  tend : Nat
  cpu0 : Nat
  cpu1 : Nat
deriving DecidableEq

/-- `TSCBenchmarking::Settings`. -/
structure Settings where
  cycles_number_ : Nat
  cpu_ : Int
  cache_warmup_cycles_number_ : Nat
deriving DecidableEq

/-- `TSCBenchmarking::Result`. -/
structure Result where
  time_ : Nat
  overhead_ : Nat
deriving DecidableEq

/-- Default number of calibration cycles (`kDefaultCyclesNumber`). -/
def kDefaultCyclesNumber : Nat := 100

/-- Default early-stop threshold of the stabilized calibration
(`kDefaultStabilizedThreshold = kDefaultCyclesNumber * 10 / 100`). -/
def kDefaultStabilizedThreshold : Nat := kDefaultCyclesNumber * 10 / 100

/-- The five barrier policies of `TSCClock`. -/
inductive Barrier
  | kOneCpuId
  | kLFence
  | kMFence
  | kRdtscp
  | kTwoCpuId
deriving DecidableEq, BEq

/-- The CPUID capability bits consulted by the `TSCBenchmarking`
constructor (`details::CpuInfo`). -/
structure CpuInfo where
  tsc_enabled : Bool
  rdtscp_enabled : Bool
  invariant_tsc_enabled : Bool
deriving DecidableEq

/-- The `TSCBenchmarking` constructor: `assert(cpu_info.IsTscEnabled())`
and `assert(BarrierType != Barrier::kRdtscp || cpu_info.IsRdtscpEnabled())`.
Returns `true` iff both assertions pass, i.e. construction succeeds.
A missing invariant TSC only prints a warning and does not fail. -/
def ConstructorOk (barrierType : Barrier) (cpu_info : CpuInfo) : Bool :=
  cpu_info.tsc_enabled && (barrierType != Barrier.kRdtscp || cpu_info.rdtscp_enabled)

/-- `TSCBenchmarking::MeasureTime`: start reading, one execution of the
code, end reading, return the raw `std::uint64_t` difference `end - start`.
The pair holds the returned difference and the state after the single
execution of `code`. -/
def MeasureTime {σ : Type _} (code : σ → σ) (st : σ) (s : Sample) : Nat × σ :=
  (wsub s.tend s.tstart, code st)

/-- The warm-up loop of `TSCBenchmarking::Run`: each iteration consumes one
sample (start and end readings that are taken and discarded) and executes
the code once.  Returns the remaining oracle and the state after the
warm-up executions. -/
def WarmupLoop {σ : Type _} (code : σ → σ) :
    Nat → List Sample → σ → List Sample × σ
  | 0, samples, st => (samples, st)
  | n + 1, samples, st => WarmupLoop code n samples.tail (code st)

/-- The measurement loop of `TSCBenchmarking::Run`
(`for (std::size_t r = 0; r < settings.cycles_number_;)`): a sample whose
core ids differ is skipped (`continue`) when `check` is set; otherwise,
when `end > start` and `end - start > tsc_overhead_`, the duration is
accumulated into the 64-bit running sum and `r` advances; any other sample
is discarded without advancing `r`.  Returns the final sum and state, or
`none` if the oracle runs out before `r` reaches `target`. -/
def RunLoop {σ : Type _} (check : Bool) (overhead target : Nat) (code : σ → σ) :
    List Sample → Nat → Nat → σ → Option (Nat × σ)
  | [], r, sum, st => if r < target then none else some (sum, st)
  | s :: rest, r, sum, st =>
    if r < target then
      if check && (s.cpu0 != s.cpu1) then
        RunLoop check overhead target code rest r sum (code st)
      else if s.tstart < s.tend then
        if overhead < s.tend - s.tstart then
          RunLoop check overhead target code rest (r + 1)
            ((sum + (s.tend - s.tstart)) % m64) (code st)
        else
          RunLoop check overhead target code rest r sum (code st)
      else
        RunLoop check overhead target code rest r sum (code st)
    else
      some (sum, st)

/-- Durations of the samples the measurement loop retains (accumulates and
counts), in order: the same traversal as `RunLoop`, collecting
`end - start` exactly on the branch that increments `r`. -/
def retainedDurations (check : Bool) (overhead target : Nat) :
    List Sample → Nat → List Nat
  | [], _ => []
  | s :: rest, r =>
    if r < target then
      if check && (s.cpu0 != s.cpu1) then
        retainedDurations check overhead target rest r
      else if s.tstart < s.tend then
        if overhead < s.tend - s.tstart then
          (s.tend - s.tstart) :: retainedDurations check overhead target rest (r + 1)
        else
          retainedDurations check overhead target rest r
      else
        retainedDurations check overhead target rest r
    else []

/-- Division as performed by `summary_time / settings.cycles_number_`:
undefined (C++ UB) on a zero divisor. -/
def checkedDiv (a b : Nat) : Option Nat :=
  if b = 0 then none else some (a / b)

/-- `TSCBenchmarking::Run`: best-effort thread pinning (a pure diagnostic,
no effect on the result), the warm-up loop, the measurement loop, and
`Result{summary_time / settings.cycles_number_, tsc_overhead_}`. -/
def Run {σ : Type _} (check : Bool) (tsc_overhead : Nat) (code : σ → σ)
    (settings : Settings) (st : σ) (samples : List Sample) : Option (Result × σ) :=
  let w := WarmupLoop code settings.cache_warmup_cycles_number_ samples st
  match RunLoop check tsc_overhead settings.cycles_number_ code w.1 0 0 w.2 with
  | none => none
  | some (sum, st2) =>
    match checkedDiv sum settings.cycles_number_ with
    | none => none
    | some t => some ({ time_ := t, overhead_ := tsc_overhead }, st2)

/-- The per-sample validity test of the calibration loops:
`Measure<Code>(start, end, code) && LIKELY(end > start)`, where `Measure`
reports whether the two core ids agree (always `true` when migration
checking is off). -/
def MeasureValid (check : Bool) (s : Sample) : Bool :=
  (!check || (s.cpu0 == s.cpu1)) && decide (s.tstart < s.tend)

/-- The loop of `TSCBenchmarking::MeasureMinLatency`: valid samples fold
their duration into the running minimum and advance `i`; invalid samples
are retried.  `none` when the oracle is exhausted first. -/
def MeasureMinLatencyLoop (check : Bool) (target : Nat) :
    List Sample → Nat → Nat → Option Nat
  | [], i, minL => if i < target then none else some minL
  | s :: rest, i, minL =>
    if i < target then
      if MeasureValid check s then
        MeasureMinLatencyLoop check target rest (i + 1) (min minL (s.tend - s.tstart))
      else
        MeasureMinLatencyLoop check target rest i minL
    else some minL

/-- `TSCBenchmarking::MeasureMinLatency`: minimum observed duration over
`cycles_number` valid iterations, starting from
`std::numeric_limits<TimePoint>::max() = 2 ^ 64 - 1`.  The timed callable
(empty code, or the reference clock call) is reflected in the sample
oracle. -/
def MeasureMinLatency (check : Bool) (cycles_number : Nat)
    (samples : List Sample) : Option Nat :=
  MeasureMinLatencyLoop check cycles_number samples 0 (m64 - 1)

/-- Durations of the valid samples consumed by `MeasureMinLatencyLoop`,
in order: the first `target - i` samples passing `MeasureValid`. -/
def validDurations (check : Bool) (target : Nat) :
    List Sample → Nat → List Nat
  | [], _ => []
  | s :: rest, i =>
    if i < target then
      if MeasureValid check s then
        (s.tend - s.tstart) :: validDurations check target rest (i + 1)
      else validDurations check target rest i
    else []

/-- `TSCBenchmarking::MeasureOverhead`: the minimum-latency floor of the
empty operation, and the floor of the reference system-clock call minus
the first floor (64-bit subtraction), as
`{min_tsc_overhead, min_clock_overhead - min_tsc_overhead}`. -/
def MeasureOverhead (check : Bool) (cycles_number : Nat)
    (emptySamples clockSamples : List Sample) : Option (Nat × Nat) :=
  match MeasureMinLatency check cycles_number emptySamples,
        MeasureMinLatency check cycles_number clockSamples with
  | some min_tsc_overhead, some min_clock_overhead =>
      some (min_tsc_overhead, wsub min_clock_overhead min_tsc_overhead)
  | _, _ => none

/-- The loop of `TSCBenchmarking::MeasureStabilizedMinLatency`:
`min_latency_cycles_number` is reset to zero when a valid sample strictly
lowers the minimum and is then incremented on every valid sample (so the
improving iteration itself counts as one); the loop runs while
`i < cycles_number && min_latency_cycles_number < stabilized_threshold`. -/
def MeasureStabilizedMinLatencyLoop (check : Bool) (target threshold : Nat) :
    List Sample → Nat → Nat → Nat → Option Nat
  | [], i, streak, minL =>
    if i < target && streak < threshold then none else some minL
  | s :: rest, i, streak, minL =>
    if i < target && streak < threshold then
      if MeasureValid check s then
        if s.tend - s.tstart < minL then
          MeasureStabilizedMinLatencyLoop check target threshold rest
            (i + 1) 1 (s.tend - s.tstart)
        else
          MeasureStabilizedMinLatencyLoop check target threshold rest
            (i + 1) (streak + 1) minL
      else
        MeasureStabilizedMinLatencyLoop check target threshold rest i streak minL
    else some minL

/-- `TSCBenchmarking::MeasureStabilizedMinLatency`. -/
def MeasureStabilizedMinLatency (check : Bool) (cycles_number stabilized_threshold : Nat)
    (samples : List Sample) : Option Nat :=
  MeasureStabilizedMinLatencyLoop check cycles_number stabilized_threshold
    samples 0 0 (m64 - 1)

/-- Durations of the valid samples actually consumed by
`MeasureStabilizedMinLatencyLoop` before it stops: the same traversal,
collecting the duration on each valid iteration. -/
def stabObservedDurations (check : Bool) (target threshold : Nat) :
    List Sample → Nat → Nat → Nat → List Nat
  | [], _, _, _ => []
  | s :: rest, i, streak, minL =>
    if i < target && streak < threshold then
      if MeasureValid check s then
        if s.tend - s.tstart < minL then
          (s.tend - s.tstart) ::
            stabObservedDurations check target threshold rest (i + 1) 1 (s.tend - s.tstart)
        else
          (s.tend - s.tstart) ::
            stabObservedDurations check target threshold rest (i + 1) (streak + 1) minL
      else
        stabObservedDurations check target threshold rest i streak minL
    else []

/-- Modelled from the spec: the stabilized loop as the specification words
it, where the streak counts only consecutive valid iterations that *failed*
to beat the current minimum (an improving iteration resets the streak to
zero and is not itself counted), stopping early once the streak reaches the
threshold. -/
def SpecStabilizedMinLatencyLoop (check : Bool) (target threshold : Nat) :
    List Sample → Nat → Nat → Nat → Option Nat
  | [], i, streak, minL =>
    if i < target && streak < threshold then none else some minL
  | s :: rest, i, streak, minL =>
    if i < target && streak < threshold then
      if MeasureValid check s then
        if s.tend - s.tstart < minL then
          SpecStabilizedMinLatencyLoop check target threshold rest
            (i + 1) 0 (s.tend - s.tstart)
        else
          SpecStabilizedMinLatencyLoop check target threshold rest
            (i + 1) (streak + 1) minL
      else
        SpecStabilizedMinLatencyLoop check target threshold rest i streak minL
    else some minL

/-- The warm-up loop drops exactly `n` oracle entries and applies the code
`n` times to the state. -/
theorem warmupLoop_eq {σ : Type _} (code : σ → σ) :
    ∀ (n : Nat) (samples : List Sample) (st : σ),
      WarmupLoop code n samples st = (samples.drop n, code^[n] st) := by
  intro n
  induction n with
  | zero => intro samples st; rfl
  | succ n ih =>
    intro samples st
    cases samples with
    | nil => simp [WarmupLoop, ih, Function.iterate_succ_apply]
    | cons a l => simp [WarmupLoop, ih, Function.iterate_succ_apply]

/-- Once `r` has reached `target` the measurement loop returns its
accumulator at once. -/
theorem runLoop_done {σ : Type _} (check : Bool) (overhead target : Nat) (code : σ → σ)
    (samples : List Sample) (r sum : Nat) (st : σ) (h : ¬ r < target) :
    RunLoop check overhead target code samples r sum st = some (sum, st) := by
  cases samples <;> simp [RunLoop, h]

/-- Characterization of a completed measurement loop: the final sum is the
64-bit sum of the retained durations added to the incoming accumulator,
exactly `target - r` durations are retained, and each retained duration is
strictly above the overhead floor. -/
theorem runLoop_spec {σ : Type _} (check : Bool) (overhead target : Nat) (code : σ → σ) :
    ∀ (samples : List Sample) (r sum : Nat) (st : σ) (sum2 : Nat) (st2 : σ),
      sum < m64 →
      RunLoop check overhead target code samples r sum st = some (sum2, st2) →
      sum2 = (sum + (retainedDurations check overhead target samples r).sum) % m64 ∧
      (retainedDurations check overhead target samples r).length = target - r ∧
      ∀ d ∈ retainedDurations check overhead target samples r, overhead < d := by
  intro samples
  induction samples with
  | nil =>
    intro r sum st sum2 st2 hb h
    by_cases hr : r < target
    · rw [RunLoop, if_pos hr] at h
      exact absurd h (by simp)
    · rw [RunLoop, if_neg hr] at h
      have h1 : sum = sum2 ∧ st = st2 := by
        simpa using h
      rw [retainedDurations]
      refine ⟨?_, by simp; omega, by simp⟩
      rw [← h1.1]
      simp [Nat.mod_eq_of_lt hb]
  | cons s rest ih =>
    intro r sum st sum2 st2 hb h
    rw [RunLoop] at h
    rw [retainedDurations]
    by_cases hr : r < target
    · rw [if_pos hr] at h ⊢
      by_cases hmig : (check && (s.cpu0 != s.cpu1)) = true
      · rw [if_pos hmig] at h ⊢
        exact ih r sum (code st) sum2 st2 hb h
      · rw [if_neg hmig] at h ⊢
        by_cases hmon : s.tstart < s.tend
        · rw [if_pos hmon] at h ⊢
          by_cases hov : overhead < s.tend - s.tstart
          · rw [if_pos hov] at h ⊢
            have hb2 : (sum + (s.tend - s.tstart)) % m64 < m64 :=
              Nat.mod_lt _ (by simp [m64])
            obtain ⟨h1, h2, h3⟩ := ih (r + 1) _ (code st) sum2 st2 hb2 h
            refine ⟨?_, ?_, ?_⟩
            · rw [h1, Nat.mod_add_mod, List.sum_cons, ← Nat.add_assoc]
            · rw [List.length_cons, h2]; omega
            · intro d hd
              rcases List.mem_cons.mp hd with hd | hd
              · exact hd ▸ hov
              · exact h3 d hd
          · rw [if_neg hov] at h ⊢
            exact ih r sum (code st) sum2 st2 hb h
        · rw [if_neg hmon] at h ⊢
          exact ih r sum (code st) sum2 st2 hb h
    · rw [if_neg hr] at h ⊢
      have h1 : sum = sum2 ∧ st = st2 := by
        simpa using h
      refine ⟨?_, by simp; omega, by simp⟩
      rw [← h1.1]
      simp [Nat.mod_eq_of_lt hb]

/-- A list of naturals all at least `k` sums to at least `k` per element. -/
theorem length_mul_le_sum (k : Nat) :
    ∀ l : List Nat, (∀ d ∈ l, k ≤ d) → l.length * k ≤ l.sum := by
  intro l
  induction l with
  | nil => intro _; simp
  | cons a l ih =>
    intro h
    have ha := h a (List.mem_cons_self a l)
    have hl := ih fun d hd => h d (List.mem_cons_of_mem a hd)
    simp only [List.length_cons, List.sum_cons]
    calc (l.length + 1) * k = k + l.length * k := by ring
    _ ≤ a + l.sum := Nat.add_le_add ha hl

/-- A completed min-latency loop returns the fold of `min` over the
durations of the valid samples it consumed. -/
theorem minLatencyLoop_spec (check : Bool) (target : Nat) :
    ∀ (samples : List Sample) (i minL v : Nat),
      MeasureMinLatencyLoop check target samples i minL = some v →
      v = (validDurations check target samples i).foldl min minL := by
  intro samples
  induction samples with
  | nil =>
    intro i minL v h
    by_cases hi : i < target
    · simp [MeasureMinLatencyLoop, hi] at h
    · simp only [MeasureMinLatencyLoop, hi, if_false, Option.some.injEq] at h
      simp [validDurations, ← h]
  | cons s rest ih =>
    intro i minL v h
    by_cases hi : i < target
    · by_cases hv : MeasureValid check s = true
      · simp only [MeasureMinLatencyLoop, hi, if_true, hv] at h
        have := ih (i + 1) (min minL (s.tend - s.tstart)) v h
        simpa [validDurations, hi, hv] using this
      · simp only [MeasureMinLatencyLoop, hi, if_true, hv, if_false] at h
        have := ih i minL v h
        simpa [validDurations, hi, hv] using this
    · simp only [MeasureMinLatencyLoop, hi, if_false, Option.some.injEq] at h
      simp [validDurations, hi, ← h]

/-- Folding `min` over a list never rises above the initial value. -/
theorem foldl_min_le_init : ∀ (l : List Nat) (init : Nat), l.foldl min init ≤ init := by
  intro l
  induction l with
  | nil => intro init; simp
  | cons a l ih =>
    intro init
    calc (a :: l).foldl min init = l.foldl min (min init a) := rfl
    _ ≤ min init a := ih (min init a)
    _ ≤ init := Nat.min_le_left _ _

/-- A completed stabilized loop returns the fold of `min` over the
durations of the valid samples it consumed before stopping. -/
theorem stabLoop_spec (check : Bool) (target threshold : Nat) :
    ∀ (samples : List Sample) (i streak minL v : Nat),
      MeasureStabilizedMinLatencyLoop check target threshold samples i streak minL = some v →
      v = (stabObservedDurations check target threshold samples i streak minL).foldl min minL := by
  intro samples
  induction samples with
  | nil =>
    intro i streak minL v h
    rw [MeasureStabilizedMinLatencyLoop] at h
    rw [stabObservedDurations]
    by_cases hi : (i < target && streak < threshold) = true
    · rw [if_pos hi] at h
      exact absurd h (by simp)
    · rw [if_neg hi] at h
      simpa using h.symm
  | cons s rest ih =>
    intro i streak minL v h
    rw [MeasureStabilizedMinLatencyLoop] at h
    rw [stabObservedDurations]
    by_cases hi : (i < target && streak < threshold) = true
    · rw [if_pos hi] at h ⊢
      by_cases hv : MeasureValid check s = true
      · rw [if_pos hv] at h ⊢
        by_cases hbeat : s.tend - s.tstart < minL
        · rw [if_pos hbeat] at h ⊢
          have := ih (i + 1) 1 (s.tend - s.tstart) v h
          have hmin : min minL (s.tend - s.tstart) = s.tend - s.tstart :=
            Nat.min_eq_right (Nat.le_of_lt hbeat)
          rw [List.foldl_cons, hmin]
          exact this
        · rw [if_neg hbeat] at h ⊢
          have := ih (i + 1) (streak + 1) minL v h
          have hmin : min minL (s.tend - s.tstart) = minL :=
            Nat.min_eq_left (Nat.le_of_not_lt hbeat)
          rw [List.foldl_cons, hmin]
          exact this
      · rw [if_neg hv] at h ⊢
        exact ih i streak minL v h
    · rw [if_neg hi] at h ⊢
      simpa using h.symm

/-- Wrapping 64-bit subtraction agrees with exact subtraction when the
minuend dominates and is in range. -/
theorem wsub_eq_sub (a b : Nat) (hle : b ≤ a) (hlt : a < m64) : wsub a b = a - b := by
  unfold wsub
  have hb : b ≤ m64 := le_trans hle (le_of_lt hlt)
  have hsplit : a + (m64 - b) = m64 + (a - b) := by omega
  rw [hsplit, Nat.add_mod_left]
  exact Nat.mod_eq_of_lt (by omega)

/-- Elimination form of a completed `Run`: the measurement loop completed
on the post-warm-up oracle with some final sum, the divisor is nonzero,
and the result is the quotient paired with the calibrated overhead. -/
theorem run_elim {σ : Type _} (check : Bool) (tsc_overhead : Nat) (code : σ → σ)
    (settings : Settings) (st : σ) (samples : List Sample) (res : Result) (st2 : σ)
    (h : Run check tsc_overhead code settings st samples = some (res, st2)) :
    ∃ sum : Nat,
      RunLoop check tsc_overhead settings.cycles_number_ code
          (samples.drop settings.cache_warmup_cycles_number_) 0 0
          (code^[settings.cache_warmup_cycles_number_] st) = some (sum, st2) ∧
      settings.cycles_number_ ≠ 0 ∧
      res = ⟨sum / settings.cycles_number_, tsc_overhead⟩ := by
  simp only [Run, warmupLoop_eq] at h
  cases hL : RunLoop check tsc_overhead settings.cycles_number_ code
      (samples.drop settings.cache_warmup_cycles_number_) 0 0
      (code^[settings.cache_warmup_cycles_number_] st) with
  | none => rw [hL] at h; exact absurd h (by simp)
  | some p =>
    obtain ⟨sum, st3⟩ := p
    rw [hL] at h
    by_cases hc : settings.cycles_number_ = 0
    · simp only [checkedDiv] at h
      rw [if_pos hc] at h
      exact absurd h (by simp)
    · simp only [checkedDiv] at h
      rw [if_neg hc] at h
      simp only [Option.some.injEq, Prod.mk.injEq] at h
      exact ⟨sum, by rw [h.2], hc, by cases h.1.symm; rfl⟩

/-- Claim C1: for every operation and every settings, a completed `Run`
returns a `Result` whose `time_` field is the 64-bit running sum of the
retained sample durations divided by `settings.cycles_number_`, and whose
`overhead_` field is the calibrated counter overhead; the code reports
both under the spec's fixed identity cycles-to-nanoseconds scaling. -/
theorem run_average {σ : Type _} (check : Bool) (tsc_overhead : Nat) (code : σ → σ)
    (settings : Settings) (st : σ) (samples : List Sample) (res : Result) (st2 : σ)
    (h : Run check tsc_overhead code settings st samples = some (res, st2)) :
    res.time_ = ((retainedDurations check tsc_overhead settings.cycles_number_
        (samples.drop settings.cache_warmup_cycles_number_) 0).sum % m64) /
      settings.cycles_number_ ∧
    res.overhead_ = tsc_overhead := by
  obtain ⟨sum, hL, _, hres⟩ :=
    run_elim check tsc_overhead code settings st samples res st2 h
  obtain ⟨h1, _, _⟩ := runLoop_spec check tsc_overhead settings.cycles_number_ code
    (samples.drop settings.cache_warmup_cycles_number_) 0 0
    (code^[settings.cache_warmup_cycles_number_] st) sum st2 (by simp [m64]) hL
  rw [hres]
  simp only [Nat.zero_add] at h1
  rw [h1]
  exact ⟨rfl, rfl⟩

/-- Witness for C1 at a concrete run of one retained sample of duration 5. -/
theorem run_average_witness :
    (⟨5, 0⟩ : Result).time_ =
      ((retainedDurations false 0 1 (([⟨0, 5, 0, 0⟩] : List Sample).drop 0) 0).sum % m64) / 1 ∧
    (⟨5, 0⟩ : Result).overhead_ = 0 :=
  run_average false 0 (fun u : Unit => u) ⟨1, 0, 0⟩ () [⟨0, 5, 0, 0⟩] ⟨5, 0⟩ ()
    (by decide)

/-- Claim C2: in the measurement phase of `Run`, a sample that passed the
core-id screen is counted toward the target and its duration accumulated
if and only if its end reading strictly exceeds its start reading and the
duration strictly exceeds the calibrated overhead floor; a sample failing
either strict test is discarded and the loop retries with `r` and the sum
unchanged. -/
theorem run_sample_retained {σ : Type _} (check : Bool) (overhead target : Nat)
    (code : σ → σ) (s : Sample) (rest : List Sample) (r sum : Nat) (st : σ)
    (hr : r < target) (hcpu : check = true → s.cpu0 = s.cpu1) :
    RunLoop check overhead target code (s :: rest) r sum st =
      if s.tstart < s.tend ∧ overhead < s.tend - s.tstart then
        RunLoop check overhead target code rest (r + 1)
          ((sum + (s.tend - s.tstart)) % m64) (code st)
      else
        RunLoop check overhead target code rest r sum (code st) := by
  have hmig : ¬ ((check && (s.cpu0 != s.cpu1)) = true) := by
    cases check with
    | false => simp
    | true => simp [hcpu rfl]
  rw [RunLoop, if_pos hr, if_neg hmig]
  by_cases hmon : s.tstart < s.tend
  · by_cases hov : overhead < s.tend - s.tstart
    · rw [if_pos hmon, if_pos hov, if_pos (And.intro hmon hov)]
    · rw [if_pos hmon, if_neg hov, if_neg (fun hc => hov hc.2)]
  · rw [if_neg hmon, if_neg (fun hc => hmon hc.1)]

/-- Witness for C2 at a concrete retained sample. -/
theorem run_sample_retained_witness :
    RunLoop false 0 1 (fun u : Unit => u) [⟨0, 5, 0, 0⟩] 0 0 () =
      (if (⟨0, 5, 0, 0⟩ : Sample).tstart < (⟨0, 5, 0, 0⟩ : Sample).tend ∧
          0 < (⟨0, 5, 0, 0⟩ : Sample).tend - (⟨0, 5, 0, 0⟩ : Sample).tstart then
        RunLoop false 0 1 (fun u : Unit => u) [] (0 + 1)
          ((0 + ((⟨0, 5, 0, 0⟩ : Sample).tend - (⟨0, 5, 0, 0⟩ : Sample).tstart)) % m64)
          ((fun u : Unit => u) ())
      else
        RunLoop false 0 1 (fun u : Unit => u) [] 0 0 ((fun u : Unit => u) ())) :=
  run_sample_retained false 0 1 (fun u : Unit => u) ⟨0, 5, 0, 0⟩ [] 0 0 ()
    (by decide) (by simp)

/-- Claim C3: with CPU-migration detection enabled, a measurement-phase
sample whose two core ids differ is discarded and retried, contributing
nothing to the running sum and not counting toward the target, and a loop
that completes has retained exactly the target number of valid samples. -/
theorem run_migration {σ : Type _} (overhead target : Nat) (code : σ → σ) :
    (∀ (s : Sample) (rest : List Sample) (r sum : Nat) (st : σ),
        r < target → s.cpu0 ≠ s.cpu1 →
        RunLoop true overhead target code (s :: rest) r sum st =
          RunLoop true overhead target code rest r sum (code st)) ∧
    (∀ (samples : List Sample) (r sum : Nat) (st : σ) (p : Nat × σ),
        sum < m64 →
        RunLoop true overhead target code samples r sum st = some p →
        (retainedDurations true overhead target samples r).length = target - r) := by
  constructor
  · intro s rest r sum st hr hcpu
    rw [RunLoop, if_pos hr, if_pos (by simp [hcpu])]
  · intro samples r sum st p hb h
    obtain ⟨sum2, st2⟩ := p
    exact (runLoop_spec true overhead target code samples r sum st sum2 st2 hb h).2.1

/-- Witness for C3 at a concrete migrated sample followed by a valid one. -/
theorem run_migration_witness :
    RunLoop true 0 1 (fun u : Unit => u) [⟨0, 5, 1, 2⟩, ⟨0, 5, 3, 3⟩] 0 0 () =
      RunLoop true 0 1 (fun u : Unit => u) [⟨0, 5, 3, 3⟩] 0 0 ((fun u : Unit => u) ()) ∧
    (retainedDurations true 0 1 [⟨0, 5, 1, 2⟩, ⟨0, 5, 3, 3⟩] 0).length = 1 - 0 :=
  ⟨(run_migration 0 1 (fun u : Unit => u)).1 ⟨0, 5, 1, 2⟩ [⟨0, 5, 3, 3⟩] 0 0 ()
      (by decide) (by decide),
   (run_migration 0 1 (fun u : Unit => u)).2 [⟨0, 5, 1, 2⟩, ⟨0, 5, 3, 3⟩] 0 0 ()
      (5, ()) (by decide) (by decide)⟩

/-- Claim C6: the benchmarking constructor succeeds exactly when the
processor supports the cycle counter and, whenever the `kRdtscp` barrier
policy (the one requiring the read-and-identify instruction) is selected,
also supports that instruction; no other capability affects
construction. -/
theorem constructor_validation :
    ∀ (b : Barrier) (c : CpuInfo),
      ConstructorOk b c = true ↔
        (c.tsc_enabled = true ∧ (b = Barrier.kRdtscp → c.rdtscp_enabled = true)) := by
  intro b c
  obtain ⟨t, r, i⟩ := c
  cases b <;> cases t <;> cases r <;> cases i <;> decide

/-- Claim C7: `MeasureTime` executes the operation exactly once between a
single start reading and a single end reading and returns the raw
difference `end - start`, with no filtering, averaging, migration
handling, or overhead subtraction. -/
theorem measure_time_raw {σ : Type _} (code : σ → σ) (st : σ) (s : Sample)
    (hle : s.tstart ≤ s.tend) (hlt : s.tend < m64) :
    (MeasureTime code st s).1 = s.tend - s.tstart ∧
    (MeasureTime code st s).2 = code st :=
  ⟨wsub_eq_sub s.tend s.tstart hle hlt, rfl⟩

/-- Witness for C7 at a concrete sample of duration 5. -/
theorem measure_time_raw_witness :
    (MeasureTime (fun n : Nat => n + 1) 0 ⟨2, 7, 0, 0⟩).1 =
      (⟨2, 7, 0, 0⟩ : Sample).tend - (⟨2, 7, 0, 0⟩ : Sample).tstart ∧
    (MeasureTime (fun n : Nat => n + 1) 0 ⟨2, 7, 0, 0⟩).2 = (fun n : Nat => n + 1) 0 :=
  measure_time_raw (fun n : Nat => n + 1) 0 ⟨2, 7, 0, 0⟩ (by decide) (by decide)

/-- Claim C4: overhead calibration runs `cycles_number` iterations (with
`kDefaultCyclesNumber = 100` as the default), retains the minimum observed
duration among the valid samples (those with `end > start`, and matching
core ids when migration checking is on) rather than the mean, applies the
same minimum-of-N procedure to the system-clock call, and reports the
clock overhead as the difference of the two floors, not the raw second
floor. -/
theorem measure_overhead_floors (check : Bool) (cycles_number : Nat)
    (emptySamples clockSamples : List Sample) (o1 o2 : Nat)
    (h : MeasureOverhead check cycles_number emptySamples clockSamples = some (o1, o2)) :
    o1 = (validDurations check cycles_number emptySamples 0).foldl min (m64 - 1) ∧
    o2 = wsub ((validDurations check cycles_number clockSamples 0).foldl min (m64 - 1)) o1 ∧
    (o1 ≤ (validDurations check cycles_number clockSamples 0).foldl min (m64 - 1) →
      o2 = (validDurations check cycles_number clockSamples 0).foldl min (m64 - 1) - o1) ∧
    kDefaultCyclesNumber = 100 := by
  unfold MeasureOverhead at h
  cases hA : MeasureMinLatency check cycles_number emptySamples with
  | none => rw [hA] at h; exact absurd h (by simp)
  | some a =>
    cases hB : MeasureMinLatency check cycles_number clockSamples with
    | none => rw [hA, hB] at h; exact absurd h (by simp)
    | some b =>
      rw [hA, hB] at h
      simp only [Option.some.injEq, Prod.mk.injEq] at h
      unfold MeasureMinLatency at hA hB
      have ha := minLatencyLoop_spec check cycles_number emptySamples 0 (m64 - 1) a hA
      have hb := minLatencyLoop_spec check cycles_number clockSamples 0 (m64 - 1) b hB
      have hbound : (validDurations check cycles_number clockSamples 0).foldl min (m64 - 1)
          < m64 := lt_of_le_of_lt (foldl_min_le_init _ _) (by simp [m64])
      refine ⟨by rw [← h.1, ha], by rw [← h.2, ← h.1, ha, hb], ?_, rfl⟩
      intro hle
      rw [← h.2, ← h.1, hb]
      rw [← h.1] at hle
      exact wsub_eq_sub _ _ hle hbound

/-- Witness for C4 with a one-cycle calibration: empty-operation floor 3,
clock floor 7, reported pair `(3, 4)`. -/
theorem measure_overhead_floors_witness :
    (3 : Nat) = (validDurations false 1 [⟨0, 3, 0, 0⟩] 0).foldl min (m64 - 1) ∧
    (4 : Nat) = wsub ((validDurations false 1 [⟨0, 7, 0, 0⟩] 0).foldl min (m64 - 1)) 3 ∧
    ((3 : Nat) ≤ (validDurations false 1 [⟨0, 7, 0, 0⟩] 0).foldl min (m64 - 1) →
      (4 : Nat) = (validDurations false 1 [⟨0, 7, 0, 0⟩] 0).foldl min (m64 - 1) - 3) ∧
    kDefaultCyclesNumber = 100 :=
  measure_overhead_floors false 1 [⟨0, 3, 0, 0⟩] [⟨0, 7, 0, 0⟩] 3 4 (by decide)

/-- Counterexample for C5: with threshold 1 and target 2, the stabilized
loop stops after its very first valid iteration — the counter also counts
the iteration that set the current minimum — although zero consecutive
valid iterations have failed to beat the minimum; the spec-worded loop,
whose streak counts only failing iterations, would continue and return the
smaller second duration. -/
theorem stabilized_threshold_counterexample :
    MeasureStabilizedMinLatency false 2 1 [⟨0, 10, 0, 0⟩, ⟨0, 3, 0, 0⟩] = some 10 ∧
    SpecStabilizedMinLatencyLoop false 2 1 [⟨0, 10, 0, 0⟩, ⟨0, 3, 0, 0⟩] 0 0 (m64 - 1) =
      some 3 ∧
    (some 10 : Option Nat) ≠ some 3 := by
  refine ⟨by decide, by decide, by decide⟩

/-- Claim C5 (amended): the stabilized variant's streak counter counts the
consecutive valid iterations since the last strict improvement of the
minimum, the improving iteration itself included (it resets the counter to
one, a non-improving valid iteration increments it, an invalid sample
leaves it unchanged); the loop stops early exactly when that counter has
reached the threshold — that is, after `threshold - 1` consecutive valid
iterations fail to beat the minimum — and otherwise runs until the target
number of valid iterations; the value returned is the minimum observed
duration. -/
theorem stabilized_behavior (check : Bool) (target threshold : Nat) :
    (∀ (s : Sample) (rest : List Sample) (i streak minL : Nat),
        ¬ (i < target ∧ streak < threshold) →
        MeasureStabilizedMinLatencyLoop check target threshold (s :: rest) i streak minL =
          some minL) ∧
    (∀ (s : Sample) (rest : List Sample) (i streak minL : Nat),
        i < target → streak < threshold → MeasureValid check s = true →
        s.tend - s.tstart < minL →
        MeasureStabilizedMinLatencyLoop check target threshold (s :: rest) i streak minL =
          MeasureStabilizedMinLatencyLoop check target threshold rest (i + 1) 1
            (s.tend - s.tstart)) ∧
    (∀ (s : Sample) (rest : List Sample) (i streak minL : Nat),
        i < target → streak < threshold → MeasureValid check s = true →
        ¬ s.tend - s.tstart < minL →
        MeasureStabilizedMinLatencyLoop check target threshold (s :: rest) i streak minL =
          MeasureStabilizedMinLatencyLoop check target threshold rest (i + 1) (streak + 1)
            minL) ∧
    (∀ (s : Sample) (rest : List Sample) (i streak minL : Nat),
        MeasureValid check s = false →
        i < target → streak < threshold →
        MeasureStabilizedMinLatencyLoop check target threshold (s :: rest) i streak minL =
          MeasureStabilizedMinLatencyLoop check target threshold rest i streak minL) ∧
    (∀ (samples : List Sample) (v : Nat),
        MeasureStabilizedMinLatency check target threshold samples = some v →
        v = (stabObservedDurations check target threshold samples 0 0 (m64 - 1)).foldl min
          (m64 - 1)) := by
  refine ⟨?_, ?_, ?_, ?_, ?_⟩
  · intro s rest i streak minL hstop
    rw [MeasureStabilizedMinLatencyLoop,
      if_neg (by simpa [not_and_or, Nat.not_lt] using hstop)]
  · intro s rest i streak minL hi hs hv hbeat
    rw [MeasureStabilizedMinLatencyLoop, if_pos (by simp [hi, hs]), if_pos hv,
      if_pos hbeat]
  · intro s rest i streak minL hi hs hv hbeat
    rw [MeasureStabilizedMinLatencyLoop, if_pos (by simp [hi, hs]), if_pos hv,
      if_neg hbeat]
  · intro s rest i streak minL hv hi hs
    rw [MeasureStabilizedMinLatencyLoop, if_pos (by simp [hi, hs]),
      if_neg (by simp [hv])]
  · intro samples v h
    exact stabLoop_spec check target threshold samples 0 0 (m64 - 1) v h

/-- Witness for C5's amended statement: the early stop, the three step
rules, and the returned minimum, each at a concrete input. -/
theorem stabilized_behavior_witness :
    MeasureStabilizedMinLatencyLoop false 2 1 [⟨0, 3, 0, 0⟩] 1 1 10 = some 10 ∧
    MeasureStabilizedMinLatencyLoop false 2 1 [⟨0, 3, 0, 0⟩] 0 0 10 =
      MeasureStabilizedMinLatencyLoop false 2 1 [] 1 1 3 ∧
    MeasureStabilizedMinLatencyLoop false 2 1 [⟨0, 12, 0, 0⟩] 0 0 10 =
      MeasureStabilizedMinLatencyLoop false 2 1 [] 1 1 10 ∧
    MeasureStabilizedMinLatencyLoop false 2 1 [⟨5, 5, 0, 0⟩] 0 0 10 =
      MeasureStabilizedMinLatencyLoop false 2 1 [] 0 0 10 ∧
    (10 : Nat) =
      (stabObservedDurations false 2 1 [⟨0, 10, 0, 0⟩, ⟨0, 3, 0, 0⟩] 0 0 (m64 - 1)).foldl
        min (m64 - 1) :=
  ⟨(stabilized_behavior false 2 1).1 ⟨0, 3, 0, 0⟩ [] 1 1 10 (by simp),
   (stabilized_behavior false 2 1).2.1 ⟨0, 3, 0, 0⟩ [] 0 0 10 (by decide) (by decide)
     (by decide) (by decide),
   (stabilized_behavior false 2 1).2.2.1 ⟨0, 12, 0, 0⟩ [] 0 0 10 (by decide) (by decide)
     (by decide) (by decide),
   (stabilized_behavior false 2 1).2.2.2.1 ⟨5, 5, 0, 0⟩ [] 0 0 10 (by decide) (by decide)
     (by decide),
   (stabilized_behavior false 2 1).2.2.2.2 [⟨0, 10, 0, 0⟩, ⟨0, 3, 0, 0⟩] 10 (by decide)⟩

/-- Counterexample for C8: with a calibrated overhead of 5 and two retained
durations of `2 ^ 63` and `2 ^ 63 + 4` cycles, the 64-bit running sum wraps
to 4, `Run` completes with `time_ = 2 < 5 = overhead_`, and the claimed
invariant `time ≥ overhead` fails. -/
theorem run_bounds_counterexample :
    Run false 5 (fun u : Unit => u) ⟨2, 0, 0⟩ ()
        [⟨0, 2 ^ 63, 0, 0⟩, ⟨0, 2 ^ 63 + 4, 0, 0⟩] =
      some (⟨2, 5⟩, ()) ∧
    ¬ (⟨2, 5⟩ : Result).overhead_ ≤ (⟨2, 5⟩ : Result).time_ :=
  ⟨by decide, by decide⟩

/-- Claim C8 (amended): for every completed call to `Run` whose 64-bit
running sum of retained durations does not wrap, the returned `Result`
satisfies `overhead ≥ 0` (unconditionally, the fields being unsigned) and
`time ≥ overhead`. -/
theorem run_result_bounds {σ : Type _} (check : Bool) (tsc_overhead : Nat) (code : σ → σ)
    (settings : Settings) (st : σ) (samples : List Sample) (res : Result) (st2 : σ)
    (h : Run check tsc_overhead code settings st samples = some (res, st2))
    (hsum : (retainedDurations check tsc_overhead settings.cycles_number_
        (samples.drop settings.cache_warmup_cycles_number_) 0).sum < m64) :
    0 ≤ res.overhead_ ∧ res.overhead_ ≤ res.time_ := by
  obtain ⟨sum, hL, hc, hres⟩ :=
    run_elim check tsc_overhead code settings st samples res st2 h
  obtain ⟨h1, h2, h3⟩ := runLoop_spec check tsc_overhead settings.cycles_number_ code
    (samples.drop settings.cache_warmup_cycles_number_) 0 0
    (code^[settings.cache_warmup_cycles_number_] st) sum st2 (by simp [m64]) hL
  set L := retainedDurations check tsc_overhead settings.cycles_number_
    (samples.drop settings.cache_warmup_cycles_number_) 0 with hLdef
  have hsum_eq : sum = L.sum := by
    rw [h1, Nat.zero_add]
    exact Nat.mod_eq_of_lt hsum
  have hlen : L.length = settings.cycles_number_ := by simpa using h2
  have hge : settings.cycles_number_ * (tsc_overhead + 1) ≤ L.sum := by
    rw [← hlen]
    exact length_mul_le_sum (tsc_overhead + 1) L fun d hd => h3 d hd
  have hpos : 0 < settings.cycles_number_ := Nat.pos_of_ne_zero hc
  have hdiv : tsc_overhead + 1 ≤ sum / settings.cycles_number_ := by
    rw [hsum_eq, Nat.le_div_iff_mul_le hpos, Nat.mul_comm]
    exact hge
  rw [hres]
  exact ⟨Nat.zero_le _, le_trans (Nat.le_succ _) hdiv⟩

/-- Witness for C8's amended statement at a concrete one-sample run. -/
theorem run_result_bounds_witness :
    (0 : Nat) ≤ (⟨5, 0⟩ : Result).overhead_ ∧
    (⟨5, 0⟩ : Result).overhead_ ≤ (⟨5, 0⟩ : Result).time_ :=
  run_result_bounds false 0 (fun u : Unit => u) ⟨1, 0, 0⟩ () [⟨0, 5, 0, 0⟩] ⟨5, 0⟩ ()
    (by decide) (by decide)

/-- Claim C9: the warm-up phase executes the operation exactly
`settings.cache_warmup_cycles_number_` times, and no warm-up reading
affects the returned `Result`: two oracles that agree after the warm-up
prefix produce identical results, so the sum, the retained count and both
`Result` fields are determined solely by the measurement phase. -/
theorem run_warmup_frame {σ : Type _} (check : Bool) (tsc_overhead : Nat) (code : σ → σ)
    (settings : Settings) (st : σ) :
    (∀ samples : List Sample,
        (WarmupLoop code settings.cache_warmup_cycles_number_ samples st).2 =
          code^[settings.cache_warmup_cycles_number_] st) ∧
    (∀ samples1 samples2 : List Sample,
        samples1.drop settings.cache_warmup_cycles_number_ =
          samples2.drop settings.cache_warmup_cycles_number_ →
        (Run check tsc_overhead code settings st samples1).map Prod.fst =
          (Run check tsc_overhead code settings st samples2).map Prod.fst) := by
  constructor
  · intro samples
    rw [warmupLoop_eq]
  · intro s1 s2 hdrop
    simp only [Run, warmupLoop_eq]
    rw [hdrop]

/-- Witness for C9: one warm-up execution, and two oracles differing only
in their warm-up entry give the same result. -/
theorem run_warmup_frame_witness :
    (WarmupLoop (fun n : Nat => n + 1) 1 [⟨9, 9, 5, 6⟩, ⟨0, 5, 0, 0⟩] 0).2 =
      (fun n : Nat => n + 1)^[1] 0 ∧
    (Run false 0 (fun n : Nat => n + 1) ⟨1, 0, 1⟩ 0
        [⟨9, 9, 5, 6⟩, ⟨0, 5, 0, 0⟩]).map Prod.fst =
      (Run false 0 (fun n : Nat => n + 1) ⟨1, 0, 1⟩ 0
        [⟨1, 2, 3, 4⟩, ⟨0, 5, 0, 0⟩]).map Prod.fst :=
  ⟨(run_warmup_frame false 0 (fun n : Nat => n + 1) ⟨1, 0, 1⟩ 0).1
      [⟨9, 9, 5, 6⟩, ⟨0, 5, 0, 0⟩],
   (run_warmup_frame false 0 (fun n : Nat => n + 1) ⟨1, 0, 1⟩ 0).2
      [⟨9, 9, 5, 6⟩, ⟨0, 5, 0, 0⟩] [⟨1, 2, 3, 4⟩, ⟨0, 5, 0, 0⟩] (by decide)⟩

/-- Claim C10: under the precondition `settings.cycles_number_ ≥ 1` the
final division of `Run` has a nonzero divisor, so a completed measurement
loop always yields a defined `Result`; with `settings.cycles_number_ = 0`
the division is by zero and `Run` has no defined result, so the
precondition is necessary. -/
theorem run_division_guard {σ : Type _} (check : Bool) (tsc_overhead : Nat) (code : σ → σ)
    (settings : Settings) (st : σ) (samples : List Sample) :
    (1 ≤ settings.cycles_number_ →
      ∀ (sum : Nat) (st2 : σ),
        RunLoop check tsc_overhead settings.cycles_number_ code
            (samples.drop settings.cache_warmup_cycles_number_) 0 0
            (code^[settings.cache_warmup_cycles_number_] st) = some (sum, st2) →
        Run check tsc_overhead code settings st samples =
          some (⟨sum / settings.cycles_number_, tsc_overhead⟩, st2)) ∧
    (settings.cycles_number_ = 0 →
      Run check tsc_overhead code settings st samples = none) := by
  constructor
  · intro hpos sum st2 hloop
    simp only [Run, warmupLoop_eq]
    rw [hloop]
    simp only [checkedDiv]
    rw [if_neg (by omega)]
  · intro h0
    simp only [Run, warmupLoop_eq]
    rw [runLoop_done check tsc_overhead settings.cycles_number_ code _ 0 0 _ (by omega)]
    simp only [checkedDiv]
    rw [if_pos h0]

/-- Witness for C10: a one-cycle run divides by one and completes; a
zero-cycle run hits the zero divisor and has no result. -/
theorem run_division_guard_witness :
    Run false 0 (fun u : Unit => u) ⟨1, 0, 0⟩ () [⟨0, 5, 0, 0⟩] =
      some (⟨5 / 1, 0⟩, ()) ∧
    Run false 0 (fun u : Unit => u) ⟨0, 0, 0⟩ () [⟨0, 5, 0, 0⟩] = none :=
  ⟨(run_division_guard false 0 (fun u : Unit => u) ⟨1, 0, 0⟩ () [⟨0, 5, 0, 0⟩]).1
      (by decide) 5 () (by decide),
   (run_division_guard false 0 (fun u : Unit => u) ⟨0, 0, 0⟩ () [⟨0, 5, 0, 0⟩]).2
      (by decide)⟩

end benchmarking
